import Mathlib

/-!
# Verification of `fracture-autodis.cpp`

A shallow embedding of `src/tools/fracture-autodis/fracture-autodis.cpp`
(the "auto disassembler" / instruction-census tool of the fracture
repository), together with theorems settling the frozen claims about it.

Conventions of the embedding:

* Machine integers (`uint64_t`, `unsigned`) are modelled as `Nat` with
  explicit `% 2^64` / `% 2^32` at the points where C++ performs modular
  arithmetic or narrowing conversions.
* The tool's console output is modelled as a trace of events, each tagged
  with the stream it goes to (`Ev.out` = standard output via `outs()`,
  `Ev.err` = standard error via `errs()`).  Diagnostic message texts are
  abridged to their identifying literal part (the `ProgramName` prefix and
  `error_code::message()` suffixes are dropped); the telemetry line is kept
  verbatim.
* External components whose code is part of the fracture repository but not
  under `src/` (DummyObjectFile, `Disassembler::getSectionByAddress`,
  `Disassembler::getSectionByName`, `Disassembler::disassemble`,
  `MCDirector::isValid`) are modelled from the spec; each such definition
  carries a doc comment saying so.  Genuinely external LLVM behaviour
  (`object::createBinary`, `MemoryBuffer::getFile`, the symbol table an ELF
  file yields) is supplied as oracle data in a `World`/`Container` value, so
  that every theorem quantifies over all possible behaviours of the
  libraries and every counterexample picks a concrete, realizable one.
-/

namespace Autodis

/-- Kind tag of a symbol-table entry (`object::SymbolRef::Type`); the census
only ever distinguishes `ST_Function` from everything else. -/
inductive SymTy where
  | func
  | other
deriving DecidableEq

/-- A section of the loaded binary: name, base address and byte size
(`object::SectionRef` restricted to the accessors used by the tool). -/
structure Sec where
  name : String
  base : Nat
  size : Nat
deriving DecidableEq

/-- A symbol-table entry (`object::SymbolRef`) restricted to the accessors
the tool uses.  Each accessor can fail with an `error_code`; `none` models
a failing `getName`/`getAddress`/`getType` call.  Addresses are `uint64_t`
values, i.e. naturals `< 2^64`. -/
structure SymbolRef where
  nameRes : Option String
  addrRes : Option Nat
  typeRes : Option SymTy
deriving DecidableEq

/-- The container classification produced by `object::createBinary` /
the `dyn_cast` chain in `runSymbolsCommand` (lines 590-607):
the four ELF variants, COFF, any other recognized object (e.g. Mach-O,
which falls into the final `else`), and the DummyObjectFile fallback. -/
inductive ObjKind where
  | elf32le
  | elf32be
  | elf64be
  | elf64le
  | coff
  | otherObj
  | dummy
deriving DecidableEq

/-- A loaded object file: its classification, its sections, its symbol
table, and its self-declared architecture (`ObjectFile::getArch`, rendered
as the architecture component of the triple). -/
structure Container where
  kind : ObjKind
  sections : List Sec
  symbols : List SymbolRef
  arch : String
deriving DecidableEq

/-- Result of `object::createBinary` when it succeeds: either an object
file (`Binary::isObject()` true, line 153) or some non-object binary such
as an archive (in which case line 153's guard leaves `TempExecutable`
untouched). -/
inductive BinRes where
  | obj (c : Container)
  | nonObject

/-- An output event: a line written to standard output (`outs()`) or to
standard error (`errs()`). -/
inductive Ev where
  | out (s : String)
  | err (s : String)
deriving DecidableEq

/-- The error taxonomy of `loadBinary`: `errc::no_such_file_or_directory`
(line 135), the `MemoryBuffer::getFile` error of the fallback path
(line 146, an I/O error), and `errc::not_supported` (line 195). -/
inductive Err where
  | noSuchFile
  | ioError
  | notSupported
deriving DecidableEq

/-- Result of `loadBinary`, paired with the diagnostic events it printed.
`crash` models the null-pointer dereference of `TempExecutable->getArch()`
(line 174) reached when `createBinary` succeeded with a non-object binary,
so that line 153's guard left `TempExecutable` null. -/
inductive LoadResult where
  | ok (c : Container) (tr : List Ev)
  | err (e : Err) (tr : List Ev)
  | crash (tr : List Ev)
deriving DecidableEq

/-- Result of one whole run of `main`: normal termination with an exit code
and the event trace, plus the flag recording whether the census loop ever
dereferenced the past-the-end block iterator (see `emitBlocks`); or a crash
during loading. -/
inductive RunResult where
  | done (exitCode : Int) (tr : List Ev) (ubDeref : Bool)
  | crashed (tr : List Ev)
deriving DecidableEq

/-- The environment of one run: all external behaviour the tool observes.
`fileExists` models `sys::fs::exists`; `createBinary` the classification of
the named source's bytes by `object::createBinary`; `readFileOk` whether
`MemoryBuffer::getFile` on the name succeeds; `mcdValid` the validity flag
of the MCDirector constructed for a triple with the given architecture
component (modelled from the spec: the decoder engine is pluggable, its
validity per target is an oracle); `disasm` the function graph (blocks of
instruction mnemonics) `Disassembler::disassemble` yields at an address
(`none` = null `MachineFunction*`); `junkAddr` the indeterminate value of
the uninitialized local `Address` read at line 567 when
`getAsInteger` failed. -/
structure World where
  fileExists : String → Bool
  createBinary : String → Except Unit BinRes
  readFileOk : String → Bool
  mcdValid : String → Bool
  disasm : Nat → Option (List (List String))
  junkAddr : Nat

/-- `object::UnknownAddressOrSize` (LLVM): the all-ones 64-bit sentinel. -/
def UnknownAddressOrSize : Nat := 2 ^ 64 - 1

/-- The fixed telemetry line of line 816. -/
def telemetryLine : String :=
  "reporter:counter:SkippingTaskCounters,MapProcessedRecords,1"

/-- Diagnostic of the `error` helper (lines 115-121). -/
def errReadingFileMsg : String := "error reading file"

/-- Diagnostic of lines 133-134. -/
def noSuchFileMsg : String := "No such file or directory"

/-- Diagnostic of lines 140-141. -/
def unknownFormatMsg : String := "Unknown file format"

/-- Diagnostic of line 145 (fallback `MemoryBuffer::getFile` failed). -/
def memBufFailMsg : String := "BLAH!"

/-- Diagnostic of line 194. -/
def mcdWarnMsg : String := "Warning: Unable to initialized LLVM MC API!"

/-- Diagnostic of line 576. -/
def couldNotFindSectionMsg : String := "Could not find section!"

/-- Diagnostic of lines 606 and 311. -/
def unsupportedSectionMsg : String := "Unsupported section type."

/-- Diagnostic of line 557 — note the source sends this one to `outs()`. -/
def didNotUnderstandMsg : String := "Did not understand section name or address."

/-- Diagnostic of lines 767-768; `n` is `InputFileName` (its only use in a
run: the supplied file name appears in this message but is never loaded). -/
def couldNotOpenMsg (n : String) : String := "Could not open stdin file! " ++ n

/-- Modelled from the spec: `DummyObjectFile::createDummyObjectFile`
(lines 149-150; its class lives in the repository outside `src/`).  Per
spec §3, an Unknown container wraps the raw bytes without structural
parsing, yields no sections or symbols, and (§4.2) declares the "unknown"
architecture. -/
def dummyContainer : Container := ⟨ObjKind.dummy, [], [], "unknown"⟩

/-- Lines 160-198 of `loadBinary`: construct the MCDirector for the triple
derived from the container (default command-line options: no `-triple`, no
`-arch`, so the architecture is the container's self-declared one,
line 174) and check its validity flag.  On an invalid director the code
prints a warning but returns `errc::not_supported` (lines 193-196). -/
def mkDecoder (w : World) (c : Container) (tr : List Ev) : LoadResult :=
  if w.mcdValid c.arch then LoadResult.ok c tr
  else LoadResult.err Err.notSupported (tr ++ [Ev.err mcdWarnMsg])

/-- `loadBinary` (lines 130-199).  A non-"-" name must exist (lines
132-136); `createBinary` failure prints a diagnostic and falls back to
reading the raw bytes into a DummyObjectFile (lines 138-151), failing with
the I/O error if even that read fails (lines 144-147); a successful
`createBinary` installs the object only when it `isObject()` (lines
152-158), otherwise `TempExecutable` stays null and line 174 dereferences
it.  Finally the decoder is constructed and validated (`mkDecoder`). -/
def loadBinary (w : World) (fileName : String) : LoadResult :=
  if fileName != "-" && !(w.fileExists fileName) then
    LoadResult.err Err.noSuchFile [Ev.err noSuchFileMsg]
  else
    match w.createBinary fileName with
    | Except.error _ =>
        if w.readFileOk fileName then
          mkDecoder w dummyContainer [Ev.err unknownFormatMsg]
        else
          LoadResult.err Err.ioError [Ev.err unknownFormatMsg, Ev.err memBufFailMsg]
    | Except.ok (BinRes.obj c) => mkDecoder w c []
    | Except.ok BinRes.nonObject => LoadResult.crash []

/-- Modelled from the spec: `Disassembler::getSectionByAddress` (repository
code outside `src/`).  Per spec §4.3 it resolves a section by
address-containment; per §3 a section's range is `[base, base+length)`. -/
def getSectionByAddress (secs : List Sec) (a : Nat) : Option Sec :=
  secs.find? (fun s => decide (s.base ≤ a) && decide (a < s.base + s.size))

/-- Modelled from the spec: `Disassembler::getSectionByName` (repository
code outside `src/`).  Per spec §4.3 it resolves a section by exact name
match. -/
def getSectionByName (secs : List Sec) (n : String) : Option Sec :=
  secs.find? (fun s => s.name == n)

/-- `StringRef::getAsInteger(0, Address)` as used on section queries,
modelled as decimal parsing (the radix-autodetect prefixes play no role for
the names the tool passes): `none` models the call returning true
(failure), `some a` the parsed value. -/
def parseAddr? (s : String) : Option Nat :=
  if s.data ≠ [] ∧ s.data.all Char.isDigit then
    some (s.data.foldl (fun n c => n * 10 + (c.toNat - 48)) 0)
  else none

/-- Lines 566-578 of `runSymbolsCommand`: section resolution.
`StringRef::getAsInteger` returns *true on failure*, so the
address-containment lookup runs exactly when the query does **not** parse
as an integer — and then reads the still-uninitialized local `Address`,
modelled by `junk`.  If the address lookup found nothing (or was skipped),
the name lookup runs; `none` models `*Executable->section_end()`. -/
def resolveSection (secs : List Sec) (query : String) (junk : Nat) : Option Sec :=
  let byAddr : Option Sec :=
    match parseAddr? query with
    | none => if junk ≠ 0 then getSectionByAddress secs junk else none
    | some _ => none
  match byAddr with
  | some s => some s
  | none => getSectionByName secs query

/-- `dumpELFSymbols` (lines 435-474), as the pure filter it is.  The
source re-reads the symbol table of the ELF object and looks up the size
of the `.text` section; here the symbol table, the section size and the
`Address` argument are passed in (the caller passes `.text`'s data, see
`runSymbolsCommand`).  The `Address` parameter is declared `unsigned` in
the source, so the caller truncates to 32 bits; `Addr <= Address+SectSize`
is `uint64_t` arithmetic, hence the `% 2^64`.  A symbol is kept iff its
type and address reads succeed, the type is `ST_Function`, the address is
non-zero, and `Address ≤ Addr ≤ Address + SectSize` (lines 467-468);
there is no test against `UnknownAddressOrSize`. -/
def dumpELFSymbols (syms : List SymbolRef) (addr32 : Nat) (sectSize : Nat) :
    List SymbolRef :=
  syms.filter fun s =>
    match s.typeRes, s.addrRes with
    | some t, some a =>
        t == SymTy.func && a != 0 && decide (addr32 ≤ a) &&
          decide (a ≤ (addr32 + sectSize) % 2 ^ 64)
    | _, _ => false

/-- `dumpCOFFSymbols` (lines 476-483): the body is stubbed out behind a
`TODO: fix this` and returns the empty vector immediately, printing no
diagnostic; its parameters are unused. -/
def dumpCOFFSymbols : List SymbolRef := []

/-- The `dyn_cast` dispatch of lines 590-607 of `runSymbolsCommand`, after
the `.text` section `t` has been fetched: COFF goes to the stub, each of
the four ELF variants to `dumpELFSymbols` (with `.text`'s base truncated to
the `unsigned` parameter and `.text`'s size as `SectSize`), and every other
container kind prints the unsupported diagnostic and returns the empty
vector. -/
def symbolsDispatch (c : Container) (t : Sec) : List SymbolRef × List Ev :=
  match c.kind with
  | ObjKind.coff => (dumpCOFFSymbols, [])
  | ObjKind.elf32le => (dumpELFSymbols c.symbols (t.base % 2 ^ 32) t.size, [])
  | ObjKind.elf32be => (dumpELFSymbols c.symbols (t.base % 2 ^ 32) t.size, [])
  | ObjKind.elf64be => (dumpELFSymbols c.symbols (t.base % 2 ^ 32) t.size, [])
  | ObjKind.elf64le => (dumpELFSymbols c.symbols (t.base % 2 ^ 32) t.size, [])
  | ObjKind.otherObj => ([], [Ev.err unsupportedSectionMsg])
  | ObjKind.dummy => ([], [Ev.err unsupportedSectionMsg])

/-- Lines 580-608 of `runSymbolsCommand`: whatever section was resolved,
the code re-fetches `.text` by name (line 580) and takes its address;
`Section.getAddress` applied to the past-the-end section (when `.text` is
absent) is modelled as the error return of lines 581-583. -/
def symbolsFromText (c : Container) : List SymbolRef × List Ev :=
  match getSectionByName c.sections ".text" with
  | none => ([], [])
  | some t => symbolsDispatch c t

/-- `runSymbolsCommand` (lines 553-609): guard on the command length
(lines 556-559), resolve the queried section (`resolveSection`,
lines 566-578, failing with the line-576 diagnostic), then *discard* the
resolution and emit the symbols of `.text` (`symbolsFromText`).  Returns
the symbol list and the events printed. -/
def runSymbolsCommand (c : Container) (cl : List String) (junk : Nat) :
    List SymbolRef × List Ev :=
  match cl with
  | _ :: query :: _ =>
    match resolveSection c.sections query junk with
    | none => ([], [Ev.err couldNotFindSectionMsg])
    | some _ => symbolsFromText c
  | _ => ([], [Ev.out didNotUnderstandMsg])

/-- The instruction-printing while-loop of lines 800-812, entered with the
block iterator `BI` on the first block (known non-empty) and `II` at its
start.  The loop emits `getName(opcode) ++ "\t1"` for each instruction of
the current block; when the block is exhausted it advances `BI` and
*unconditionally* calls `BI->instr_begin()` / `BI->instr_end()` (lines
808-810) — when the exhausted block was the last one, `BI` is then
`MF->end()` and this dereferences the past-the-end iterator.  The returned
`Bool` records that access; the values so read are never used, because the
`BI != BE` test then ends the loop, so the emitted lines are unaffected.
A non-last successor block of size 0 ends the loop via the
`BI->size() > 0` conjunct, discarding all later blocks. -/
def emitBlocks : List (List String) → List String × Bool
  | [] => ([], true)
  | b :: rest =>
      if b.isEmpty then ([], false)
      else
        let r := emitBlocks rest
        (b.map (fun m => m ++ "\t1") ++ r.1, r.2)

/-- The per-symbol body of the census loop (lines 778-813): skip the symbol
on a failing `getAddress` (with the `error` diagnostic), a zero address, or
a failing `getName`; disassemble; skip silently when the result is null,
has no blocks, or its first block is empty; otherwise print via
`emitBlocks`. -/
def perSymbol (disasm : Nat → Option (List (List String))) (s : SymbolRef) :
    List Ev × Bool :=
  match s.addrRes with
  | none => ([Ev.err errReadingFileMsg], false)
  | some a =>
    if a = 0 then ([], false)
    else
      match s.nameRes with
      | none => ([Ev.err errReadingFileMsg], false)
      | some _ =>
        match disasm a with
        | none => ([], false)
        | some [] => ([], false)
        | some (b :: bs) =>
          if b.isEmpty then ([], false)
          else
            let r := emitBlocks (b :: bs)
            (r.1.map Ev.out, r.2)

/-- The symbol loop of lines 778-814: process the scanned symbols in order,
concatenating their events; the end-iterator-dereference flags are
accumulated with `||`. -/
def censusLoop (disasm : Nat → Option (List (List String))) :
    List SymbolRef → List Ev × Bool
  | [] => ([], false)
  | s :: rest =>
      let p := perSymbol disasm s
      let r := censusLoop disasm rest
      (p.1 ++ r.1, p.2 || r.2)

/-- `main` (lines 731-819), with default command-line options.  Step 1
loads from `"-"` — the literal standard-input designator, line 766; the
supplied `inputFileName` is used only inside the failure diagnostic
(lines 767-768), where a failed load exits with `-1`.  Step 2 runs
`runSymbolsCommand` with `CL = ["sym", ".text"]` (lines 773-776).  Steps
3-4 are `censusLoop`.  Finally line 816 prints the telemetry line — to
`errs()` — and `main` returns 0. -/
def runMain (w : World) (inputFileName : String) : RunResult :=
  match loadBinary w "-" with
  | LoadResult.crash tr => RunResult.crashed tr
  | LoadResult.err _ tr =>
      RunResult.done (-1) (tr ++ [Ev.err (couldNotOpenMsg inputFileName)]) false
  | LoadResult.ok c tr =>
      let sres := runSymbolsCommand c ["sym", ".text"] w.junkAddr
      let cres := censusLoop w.disasm sres.1
      RunResult.done 0 (tr ++ sres.2 ++ cres.1 ++ [Ev.err telemetryLine]) cres.2

/-- The event trace of a run, crashed or not. -/
def runTrace : RunResult → List Ev
  | RunResult.done _ tr _ => tr
  | RunResult.crashed tr => tr

/-- Whether a container kind is one of the four ELF variants. -/
def isELF : ObjKind → Bool
  | ObjKind.elf32le => true
  | ObjKind.elf32be => true
  | ObjKind.elf64be => true
  | ObjKind.elf64le => true
  | _ => false

end Autodis

namespace Autodis

/-! ## Helper lemmas -/

theorem load_ok_trace {w : World} {fn : String} {c : Container} {tr : List Ev}
    (h : loadBinary w fn = LoadResult.ok c tr) :
    tr = [] ∨ tr = [Ev.err unknownFormatMsg] := by
  unfold loadBinary mkDecoder at h
  split at h
  · simp_all
  · split at h
    · split at h
      · split at h <;> simp_all
      · simp_all
    · split at h <;> simp_all
    · simp_all

theorem load_err_trace {w : World} {fn : String} {e : Err} {tr : List Ev}
    (h : loadBinary w fn = LoadResult.err e tr) :
    tr = [Ev.err noSuchFileMsg] ∨
    tr = [Ev.err unknownFormatMsg, Ev.err memBufFailMsg] ∨
    tr = [Ev.err unknownFormatMsg, Ev.err mcdWarnMsg] ∨
    tr = [Ev.err mcdWarnMsg] := by
  unfold loadBinary mkDecoder at h
  split at h
  · simp_all
  · split at h
    · split at h
      · split at h <;> simp_all
      · simp_all
    · split at h <;> simp_all
    · simp_all

theorem runSymbols_unresolved {c : Container} {q : String} {j : Nat}
    (h : resolveSection c.sections q j = none) :
    runSymbolsCommand c ["sym", q] j = ([], [Ev.err couldNotFindSectionMsg]) := by
  show (match resolveSection c.sections q j with
        | none => (([] : List SymbolRef), [Ev.err couldNotFindSectionMsg])
        | some _ => symbolsFromText c) = ([], [Ev.err couldNotFindSectionMsg])
  rw [h]

theorem runSymbols_resolved {c : Container} {q : String} {j : Nat} {r : Sec}
    (h : resolveSection c.sections q j = some r) :
    runSymbolsCommand c ["sym", q] j = symbolsFromText c := by
  show (match resolveSection c.sections q j with
        | none => (([] : List SymbolRef), [Ev.err couldNotFindSectionMsg])
        | some _ => symbolsFromText c) = symbolsFromText c
  rw [h]

theorem symbolsDispatch_snd (c : Container) (t : Sec) :
    (symbolsDispatch c t).2 = [] ∨
    (symbolsDispatch c t).2 = [Ev.err unsupportedSectionMsg] := by
  unfold symbolsDispatch
  cases hk : c.kind <;> simp

theorem symbolsFromText_snd (c : Container) :
    (symbolsFromText c).2 = [] ∨
    (symbolsFromText c).2 = [Ev.err unsupportedSectionMsg] := by
  unfold symbolsFromText
  cases htext : getSectionByName c.sections ".text" with
  | none => simp
  | some t => simpa using symbolsDispatch_snd c t

theorem runSymbols_snd_cases (c : Container) (q : String) (j : Nat) :
    (runSymbolsCommand c ["sym", q] j).2 = [] ∨
    (runSymbolsCommand c ["sym", q] j).2 = [Ev.err couldNotFindSectionMsg] ∨
    (runSymbolsCommand c ["sym", q] j).2 = [Ev.err unsupportedSectionMsg] := by
  cases hres : resolveSection c.sections q j with
  | none => rw [runSymbols_unresolved hres]; simp
  | some r =>
    rw [runSymbols_resolved hres]
    rcases symbolsFromText_snd c with h3 | h3
    · exact Or.inl h3
    · exact Or.inr (Or.inr h3)

theorem emitBlocks_mem {bs : List (List String)} {x : String}
    (hx : x ∈ (emitBlocks bs).1) : ∃ m, x = m ++ "\t1" := by
  induction bs with
  | nil => simp [emitBlocks] at hx
  | cons b rest ih =>
    by_cases hb : b.isEmpty
    · simp [emitBlocks, hb] at hx
    · simp only [emitBlocks, hb, if_neg, Bool.false_eq_true, not_false_iff,
        ite_false, List.mem_append, List.mem_map] at hx
      rcases hx with ⟨m, _, rfl⟩ | hx
      · exact ⟨m, rfl⟩
      · exact ih hx

theorem emitBlocks_join (bs : List (List String)) (h : ∀ b ∈ bs, b ≠ []) :
    (emitBlocks bs).1 = bs.flatten.map (fun m => m ++ "\t1") := by
  induction bs with
  | nil => simp [emitBlocks]
  | cons b rest ih =>
    have hb : b.isEmpty = false := by
      cases b with
      | nil => exact absurd rfl (h [] (List.mem_cons_self _ _))
      | cons x xs => rfl
    simp [emitBlocks, hb, ih (fun y hy => h y (List.mem_cons_of_mem _ hy))]

theorem perSymbol_mem {d : Nat → Option (List (List String))} {s : SymbolRef} {e : Ev}
    (he : e ∈ (perSymbol d s).1) :
    (∃ m, e = Ev.out (m ++ "\t1")) ∨ e = Ev.err errReadingFileMsg := by
  unfold perSymbol at he
  cases ha : s.addrRes with
  | none => rw [ha] at he; simp at he; exact Or.inr he
  | some a =>
    simp only [ha] at he
    by_cases h0 : a = 0
    · simp [h0] at he
    · rw [if_neg h0] at he
      cases hn : s.nameRes with
      | none => rw [hn] at he; simp at he; exact Or.inr he
      | some nm =>
        simp only [hn] at he
        cases hd : d a with
        | none => rw [hd] at he; simp at he
        | some blocks =>
          simp only [hd] at he
          cases blocks with
          | nil => simp at he
          | cons b bs =>
            cases hb : b.isEmpty with
            | true => simp [hb] at he
            | false =>
              simp only [hb, Bool.false_eq_true, if_false, List.mem_map] at he
              obtain ⟨x, hx, rfl⟩ := he
              obtain ⟨m, rfl⟩ := emitBlocks_mem hx
              exact Or.inl ⟨m, rfl⟩

theorem censusLoop_mem {d : Nat → Option (List (List String))} {syms : List SymbolRef}
    {e : Ev} (he : e ∈ (censusLoop d syms).1) :
    (∃ m, e = Ev.out (m ++ "\t1")) ∨ e = Ev.err errReadingFileMsg := by
  induction syms with
  | nil => simp [censusLoop] at he
  | cons s rest ih =>
    simp only [censusLoop, List.mem_append] at he
    rcases he with he | he
    · exact perSymbol_mem he
    · exact ih he

theorem censusLoop_append (d : Nat → Option (List (List String)))
    (xs ys : List SymbolRef) :
    censusLoop d (xs ++ ys) =
      ((censusLoop d xs).1 ++ (censusLoop d ys).1,
        ((censusLoop d xs).2 || (censusLoop d ys).2)) := by
  induction xs with
  | nil => simp [censusLoop]
  | cons s rest ih => simp [censusLoop, ih, Bool.or_assoc]

theorem mem_dumpELFSymbols {syms : List SymbolRef} {addr32 size : Nat} {s : SymbolRef} :
    s ∈ dumpELFSymbols syms addr32 size ↔
      s ∈ syms ∧ s.typeRes = some SymTy.func ∧
        ∃ a, s.addrRes = some a ∧ a ≠ 0 ∧ addr32 ≤ a ∧
          a ≤ (addr32 + size) % 2 ^ 64 := by
  unfold dumpELFSymbols
  rw [List.mem_filter]
  cases ht : s.typeRes with
  | none => simp [ht]
  | some t =>
    cases ha : s.addrRes with
    | none => simp [ht, ha]
    | some a =>
      cases t with
      | other => simp [ht, ha]
      | func => simp [ht, ha, and_assoc]

end Autodis

namespace Autodis

/-! ## Concrete fixtures used by counterexamples and witnesses -/

/-- A minimal ELF64-LE container: one `.text` section, empty symbol table. -/
def elfEmpty : Container := ⟨ObjKind.elf64le, [⟨".text", 4096, 16⟩], [], "x86_64"⟩

/-- A run environment whose standard input classifies as `elfEmpty` and whose
decoder validates, so the load step succeeds; no file exists on disk. -/
def wElf : World :=
  ⟨fun _ => false, fun _ => Except.ok (BinRes.obj elfEmpty), fun _ => false,
   fun _ => true, fun _ => none, 0⟩

/-- A run environment whose standard input is readable but not a recognized
container (e.g. a plain text file or empty input): `createBinary` fails, the
raw bytes are readable, and — as for the real LLVM MC API — the decoder does
not validate the "unknown" architecture the Unknown container declares. -/
def wText : World :=
  ⟨fun _ => false, fun _ => Except.error (), fun _ => true,
   fun a => a != "unknown", fun _ => none, 0⟩

/-- Like `wText`, but with a (hypothetical) decoder engine that validates
every architecture, exercising the success branch of the fallback path. -/
def wTextValid : World :=
  ⟨fun _ => false, fun _ => Except.error (), fun _ => true,
   fun _ => true, fun _ => none, 0⟩

/-- A function symbol whose address is the `UnknownAddressOrSize` sentinel. -/
def sentinelSym : SymbolRef := ⟨some "x", some UnknownAddressOrSize, some SymTy.func⟩

/-- An ELF container with distinct `.text` and `.data` sections and one
function symbol inside `.text` (and outside `.data`). -/
def cTwoSec : Container :=
  ⟨ObjKind.elf64le, [⟨".text", 4096, 256⟩, ⟨".data", 8192, 256⟩],
   [⟨some "f1", some 4200, some SymTy.func⟩], "arm"⟩

/-- A COFF container that does have a `.text` section and a function symbol
inside it. -/
def cCoff : Container :=
  ⟨ObjKind.coff, [⟨".text", 4096, 256⟩], [⟨some "g", some 4100, some SymTy.func⟩], "x86"⟩

/-- A function symbol at address 100 with readable name and address. -/
def sFunc : SymbolRef := ⟨some "f", some 100, some SymTy.func⟩

/-- A disassembly oracle yielding a graph whose middle block is empty. -/
def dSplit : Nat → Option (List (List String)) := fun _ => some [["a"], [], ["b"]]

/-- A disassembly oracle yielding a single one-instruction block. -/
def dOne : Nat → Option (List (List String)) := fun _ => some [["mov"]]

/-- A disassembly oracle yielding two non-empty blocks. -/
def dTwo : Nat → Option (List (List String)) := fun _ => some [["a"], ["b"]]

/-- A disassembly oracle that always fails (null `MachineFunction*`). -/
def dNone : Nat → Option (List (List String)) := fun _ => none

/-! ## Unfolding lemmas for `runMain` -/

theorem runMain_ok_eq {w : World} {n : String} {c : Container} {tr : List Ev}
    (h : loadBinary w "-" = LoadResult.ok c tr) :
    runMain w n = RunResult.done 0
      ((tr ++ (runSymbolsCommand c ["sym", ".text"] w.junkAddr).2 ++
        (censusLoop w.disasm (runSymbolsCommand c ["sym", ".text"] w.junkAddr).1).1) ++
        [Ev.err telemetryLine])
      (censusLoop w.disasm (runSymbolsCommand c ["sym", ".text"] w.junkAddr).1).2 := by
  unfold runMain
  rw [h]

theorem runMain_err_eq {w : World} {n : String} {e : Err} {tr : List Ev}
    (h : loadBinary w "-" = LoadResult.err e tr) :
    runMain w n = RunResult.done (-1) (tr ++ [Ev.err (couldNotOpenMsg n)]) false := by
  unfold runMain
  rw [h]

/-- Classification of every event a successful run prints before the
telemetry line. -/
theorem pre_events_ok {w : World} {c : Container} {tr : List Ev}
    (h : loadBinary w "-" = LoadResult.ok c tr) {e : Ev}
    (he : e ∈ tr ++ (runSymbolsCommand c ["sym", ".text"] w.junkAddr).2 ++
      (censusLoop w.disasm (runSymbolsCommand c ["sym", ".text"] w.junkAddr).1).1) :
    e = Ev.err unknownFormatMsg ∨ e = Ev.err couldNotFindSectionMsg ∨
    e = Ev.err unsupportedSectionMsg ∨ e = Ev.err errReadingFileMsg ∨
    ∃ m, e = Ev.out (m ++ "\t1") := by
  rcases List.mem_append.mp he with he2 | hc
  · rcases List.mem_append.mp he2 with hl | hs
    · rcases load_ok_trace h with rfl | rfl
      · simp at hl
      · simp at hl
        exact Or.inl hl
    · rcases runSymbols_snd_cases c ".text" w.junkAddr with h2 | h2 | h2 <;>
        rw [h2] at hs
      · simp at hs
      · simp at hs
        exact Or.inr (Or.inl hs)
      · simp at hs
        exact Or.inr (Or.inr (Or.inl hs))
  · rcases censusLoop_mem hc with ⟨m, rfl⟩ | rfl
    · exact Or.inr (Or.inr (Or.inr (Or.inr ⟨m, rfl⟩)))
    · exact Or.inr (Or.inr (Or.inr (Or.inl rfl)))

/-! ## Claim C1 -/

/-- **C1, counterexample.**  A run whose load succeeds and which scans no
symbols: the telemetry record is printed on standard error (`Ev.err`) and
never appears on standard output, refuting the claim that it is emitted
exactly once on the output stream (standard output). -/
theorem c1_counterexample :
    runMain wElf "-" = RunResult.done 0 [Ev.err telemetryLine] false ∧
    Ev.out telemetryLine ∉ runTrace (runMain wElf "-") := by
  constructor
  · decide
  · decide

/-- **C1, amended.**  In every run whose load step succeeds, the telemetry
record is emitted exactly once — on standard *error*, not standard output —
as the final event of the run, after all instruction records; every event
the run puts on standard output is an instruction record of the form
`mnemonic ++ "\t1"`. -/
theorem c1_telemetry_stream (w : World) (n : String) (c : Container) (tr : List Ev)
    (h : loadBinary w "-" = LoadResult.ok c tr) :
    ∃ pre ub, runMain w n = RunResult.done 0 (pre ++ [Ev.err telemetryLine]) ub ∧
      Ev.err telemetryLine ∉ pre ∧
      ∀ s, Ev.out s ∈ pre → ∃ m, s = m ++ "\t1" := by
  refine ⟨_, _, runMain_ok_eq h, ?_, ?_⟩
  · intro hmem
    rcases pre_events_ok h hmem with h1 | h1 | h1 | h1 | ⟨m, h1⟩
    · injection h1 with h2
      exact absurd h2 (by decide)
    · injection h1 with h2
      exact absurd h2 (by decide)
    · injection h1 with h2
      exact absurd h2 (by decide)
    · injection h1 with h2
      exact absurd h2 (by decide)
    · cases h1
  · intro s hs
    rcases pre_events_ok h hs with h1 | h1 | h1 | h1 | ⟨m, h1⟩
    · cases h1
    · cases h1
    · cases h1
    · cases h1
    · injection h1 with h2
      exact ⟨m, h2⟩

/-- **C1, witness.**  The amended statement at a concrete run. -/
theorem c1_telemetry_stream_witness :
    loadBinary wElf "-" = LoadResult.ok elfEmpty [] ∧
    ∃ pre ub, runMain wElf "x" = RunResult.done 0 (pre ++ [Ev.err telemetryLine]) ub ∧
      Ev.err telemetryLine ∉ pre ∧
      ∀ s, Ev.out s ∈ pre → ∃ m, s = m ++ "\t1" :=
  ⟨by decide, c1_telemetry_stream wElf "x" elfEmpty [] (by decide)⟩

end Autodis

namespace Autodis

/-! ## Claims C2, C3, C7 (loading and exit status) -/

theorem telemetry_not_in_pre {w : World} {c : Container} {tr : List Ev}
    (h : loadBinary w "-" = LoadResult.ok c tr) :
    Ev.err telemetryLine ∉ tr ++ (runSymbolsCommand c ["sym", ".text"] w.junkAddr).2 ++
      (censusLoop w.disasm (runSymbolsCommand c ["sym", ".text"] w.junkAddr).1).1 := by
  intro hmem
  rcases pre_events_ok h hmem with h1 | h1 | h1 | h1 | ⟨m, h1⟩
  · injection h1 with h2
    exact absurd h2 (by decide)
  · injection h1 with h2
    exact absurd h2 (by decide)
  · injection h1 with h2
    exact absurd h2 (by decide)
  · injection h1 with h2
    exact absurd h2 (by decide)
  · cases h1

theorem load_err_events {w : World} {fn : String} {e : Err} {tr : List Ev}
    (h : loadBinary w fn = LoadResult.err e tr) :
    (∀ s, Ev.out s ∉ tr) ∧ Ev.err telemetryLine ∉ tr := by
  rcases load_err_trace h with rfl | rfl | rfl | rfl <;>
    exact ⟨fun s hs => by simp at hs, by decide⟩

theorem telemetry_ne_couldNotOpen (n : String) :
    Ev.err telemetryLine ≠ Ev.err (couldNotOpenMsg n) := by
  intro h
  injection h with h
  have h2 := congrArg String.data h
  obtain ⟨d⟩ := n
  simp [telemetryLine, couldNotOpenMsg, String.data] at h2

/-- **C2, counterexample.**  A readable input (the raw bytes are readable:
`readFileOk` holds) whose container format is not recognized, with the
decoder engine — like the real LLVM MC API — rejecting the "unknown"
architecture: the run exits with status `-1`, not zero, and emits no
telemetry record at all, refuting the claim that any readable input exits
with status zero and exactly one telemetry record. -/
theorem c2_counterexample :
    wText.readFileOk "-" = true ∧
    runMain wText "-" = RunResult.done (-1)
      [Ev.err unknownFormatMsg, Ev.err mcdWarnMsg, Ev.err (couldNotOpenMsg "-")] false ∧
    Ev.err telemetryLine ∉ runTrace (runMain wText "-") := by
  refine ⟨by decide, by decide, by decide⟩

/-- **C2, amended.**  The exit status is zero exactly when the load step
succeeds — which requires not only that the bytes be readable but also that
the decoder engine validate the resolved target; a run whose load fails
exits with `-1`, prints no output-stream record and no telemetry record,
while a run whose load succeeds exits with 0 and emits the telemetry record
exactly once (on standard error). -/
theorem c2_exit_status (w : World) (n : String) :
    (∀ c tr, loadBinary w "-" = LoadResult.ok c tr →
      ∃ pre ub, runMain w n = RunResult.done 0 (pre ++ [Ev.err telemetryLine]) ub ∧
        Ev.err telemetryLine ∉ pre) ∧
    (∀ e tr, loadBinary w "-" = LoadResult.err e tr →
      runMain w n = RunResult.done (-1) (tr ++ [Ev.err (couldNotOpenMsg n)]) false ∧
      (∀ s, Ev.out s ∉ tr ++ [Ev.err (couldNotOpenMsg n)]) ∧
      Ev.err telemetryLine ∉ tr ++ [Ev.err (couldNotOpenMsg n)]) := by
  constructor
  · intro c tr h
    exact ⟨_, _, runMain_ok_eq h, telemetry_not_in_pre h⟩
  · intro e tr h
    refine ⟨runMain_err_eq h, ?_, ?_⟩
    · intro s hs
      rcases List.mem_append.mp hs with hs | hs
      · exact (load_err_events h).1 s hs
      · simp at hs
    · intro hs
      rcases List.mem_append.mp hs with hs | hs
      · exact (load_err_events h).2 hs
      · simp only [List.mem_singleton] at hs
        exact telemetry_ne_couldNotOpen n hs

/-- **C2, witness.**  The amended statement at a concrete failing load. -/
theorem c2_exit_status_witness :
    runMain wText "-" = RunResult.done (-1)
      ([Ev.err unknownFormatMsg, Ev.err mcdWarnMsg] ++ [Ev.err (couldNotOpenMsg "-")]) false ∧
    (∀ s, Ev.out s ∉ [Ev.err unknownFormatMsg, Ev.err mcdWarnMsg] ++
      [Ev.err (couldNotOpenMsg "-")]) ∧
    Ev.err telemetryLine ∉ [Ev.err unknownFormatMsg, Ev.err mcdWarnMsg] ++
      [Ev.err (couldNotOpenMsg "-")] :=
  (c2_exit_status wText "-").2 Err.notSupported
    [Ev.err unknownFormatMsg, Ev.err mcdWarnMsg] (by decide)

/-- **C3, counterexample.**  A run given the path "nope", which names no
existing file: because `main` hardcodes the standard-input designator
(line 766: `loadBinary("-")`), the supplied path is never loaded; with
loadable standard input the run exits with status 0, refuting the claim
that it exits with non-zero status. -/
theorem c3_counterexample :
    wElf.fileExists "nope" = false ∧ "nope" ≠ "-" ∧
    runMain wElf "nope" = RunResult.done 0 [Ev.err telemetryLine] false := by
  refine ⟨by decide, by decide, by decide⟩

/-- **C3, amended.**  `loadBinary` itself, applied to a path other than
`"-"` that names no existing file, does fail with NotFound
(`no_such_file_or_directory`), and any load failure makes the run exit with
`-1` having produced no output-stream records; but the census run always
loads from standard input and ignores the supplied path, so a nonexistent
path argument does not by itself make the run fail. -/
theorem c3_nonexistent_path (w : World) (p : String) (hp : p ≠ "-")
    (hne : w.fileExists p = false) :
    loadBinary w p = LoadResult.err Err.noSuchFile [Ev.err noSuchFileMsg] ∧
    ∀ n e tr, loadBinary w "-" = LoadResult.err e tr →
      runMain w n = RunResult.done (-1) (tr ++ [Ev.err (couldNotOpenMsg n)]) false ∧
      ∀ s, Ev.out s ∉ runTrace (runMain w n) := by
  constructor
  · have hbne : (p != "-") = true := by
      simp [bne_iff_ne, hp]
    unfold loadBinary
    rw [hbne, hne]
    rfl
  · intro n e tr h
    refine ⟨runMain_err_eq h, ?_⟩
    intro s hs
    rw [runMain_err_eq h] at hs
    simp only [runTrace] at hs
    rcases List.mem_append.mp hs with hs | hs
    · exact (load_err_events h).1 s hs
    · simp at hs

/-- **C3, witness.**  The amended statement at a concrete nonexistent
path. -/
theorem c3_nonexistent_path_witness :
    loadBinary wText "nope" = LoadResult.err Err.noSuchFile [Ev.err noSuchFileMsg] ∧
    runMain wText "x" = RunResult.done (-1)
      ([Ev.err unknownFormatMsg, Ev.err mcdWarnMsg] ++ [Ev.err (couldNotOpenMsg "x")]) false :=
  ⟨(c3_nonexistent_path wText "nope" (by decide) (by decide)).1,
   ((c3_nonexistent_path wText "nope" (by decide) (by decide)).2 "x" Err.notSupported
      [Ev.err unknownFormatMsg, Ev.err mcdWarnMsg] (by decide)).1⟩

/-- **C7, counterexample.**  A readable input of unrecognized format whose
decoder (like the real LLVM MC API on the "unknown" architecture) fails to
validate: `loadBinary` does *not* return successfully — it fails with
`not_supported`, which is neither success nor `IoError`, refuting the claim
that load fails only with IoError and that decoder-validation failure is a
non-fatal warning. -/
theorem c7_counterexample :
    wText.createBinary "-" = Except.error () ∧ wText.readFileOk "-" = true ∧
    loadBinary wText "-" =
      LoadResult.err Err.notSupported [Ev.err unknownFormatMsg, Ev.err mcdWarnMsg] := by
  refine ⟨rfl, by decide, by decide⟩

/-- **C7, amended.**  An unrecognized container format never propagates the
`createBinary` error itself: with readable bytes the raw bytes are wrapped
as the Unknown (Dummy) container.  The load then succeeds only if the
decoder engine validates the "unknown" architecture; if the engine rejects
it, load fails with `not_supported` (after printing the warning of
line 194), and if even the fallback read of the bytes fails, load fails
with the I/O error. -/
theorem c7_load_fallback (w : World) (h : w.createBinary "-" = Except.error ()) :
    (w.readFileOk "-" = true → w.mcdValid "unknown" = true →
      loadBinary w "-" = LoadResult.ok dummyContainer [Ev.err unknownFormatMsg]) ∧
    (w.readFileOk "-" = true → w.mcdValid "unknown" = false →
      loadBinary w "-" =
        LoadResult.err Err.notSupported [Ev.err unknownFormatMsg, Ev.err mcdWarnMsg]) ∧
    (w.readFileOk "-" = false →
      loadBinary w "-" =
        LoadResult.err Err.ioError [Ev.err unknownFormatMsg, Ev.err memBufFailMsg]) := by
  refine ⟨?_, ?_, ?_⟩ <;> intro h1 <;> try intro h2
  · unfold loadBinary mkDecoder
    rw [h, h1]
    simp [dummyContainer, h2]
  · unfold loadBinary mkDecoder
    rw [h, h1]
    simp [dummyContainer, h2]
  · unfold loadBinary
    rw [h, h1]
    rfl

/-- **C7, witness.**  The amended statement at concrete runs: the fallback
succeeds with a validating engine and fails with `not_supported` with a
rejecting one. -/
theorem c7_load_fallback_witness :
    loadBinary wTextValid "-" = LoadResult.ok dummyContainer [Ev.err unknownFormatMsg] ∧
    loadBinary wText "-" =
      LoadResult.err Err.notSupported [Ev.err unknownFormatMsg, Ev.err mcdWarnMsg] :=
  ⟨(c7_load_fallback wTextValid rfl).1 rfl rfl,
   (c7_load_fallback wText rfl).2.1 rfl rfl⟩

end Autodis

namespace Autodis

/-! ## Claims C4, C5, C6 (symbol scanning) -/

/-- **C4, counterexample.**  `dumpELFSymbols` performs no test against the
`UnknownAddressOrSize` sentinel: for a section whose (truncated) base plus
size reaches the top of the 64-bit range, a function symbol whose address
*is* the sentinel passes the range filter and appears in the output set,
refuting the claim that the filter includes `address ≠ sentinel`. -/
theorem c4_counterexample :
    sentinelSym.addrRes = some UnknownAddressOrSize ∧
    dumpELFSymbols [sentinelSym] 0 (2 ^ 64 - 1) = [sentinelSym] := by
  refine ⟨rfl, by decide⟩

/-- **C4, amended.**  The scanner's result contains exactly the symbol-table
entries whose type and address reads succeed with kind = function, address
≠ 0 and `addr32 ≤ address ≤ (addr32 + size) % 2^64` (where `addr32` is the
section base truncated to `unsigned`); there is no separate sentinel test,
but whenever `(addr32 + size) % 2^64` stays below the sentinel — every
realistic section — a sentinel-addressed symbol cannot appear in the
output. -/
theorem c4_symbol_filter (syms : List SymbolRef) (addr32 size : Nat) :
    (∀ s, s ∈ dumpELFSymbols syms addr32 size ↔
      s ∈ syms ∧ s.typeRes = some SymTy.func ∧
        ∃ a, s.addrRes = some a ∧ a ≠ 0 ∧ addr32 ≤ a ∧
          a ≤ (addr32 + size) % 2 ^ 64) ∧
    ((addr32 + size) % 2 ^ 64 < UnknownAddressOrSize →
      ∀ s ∈ dumpELFSymbols syms addr32 size,
        s.addrRes ≠ some UnknownAddressOrSize) := by
  constructor
  · intro s
    exact mem_dumpELFSymbols
  · intro hlt s hs hsent
    obtain ⟨-, -, a, ha, -, -, hle⟩ := mem_dumpELFSymbols.mp hs
    rw [ha] at hsent
    injection hsent with h3
    rw [h3] at hle
    exact absurd (lt_of_le_of_lt hle hlt) (lt_irrefl _)

/-- **C4, witness.**  The amended statement at a concrete symbol table and
section. -/
theorem c4_symbol_filter_witness :
    sFunc ∈ dumpELFSymbols [sFunc] 0 4096 ∧
    ∀ s ∈ dumpELFSymbols [sFunc] 0 4096, s.addrRes ≠ some UnknownAddressOrSize :=
  ⟨((c4_symbol_filter [sFunc] 0 4096).1 sFunc).mpr
      ⟨List.mem_singleton.mpr rfl, rfl, 100, rfl, by decide, by decide, by decide⟩,
   (c4_symbol_filter [sFunc] 0 4096).2 (by decide)⟩

/-- **C5, counterexample.**  Querying the `.data` section of a container
that also has a `.text` section: the resolution does find `.data`, but the
returned symbol lies in `.text` (address 4200) and *not* in the resolved
section's range (which starts at 8192), refuting the claim that the
returned symbols lie within the resolved section's range. -/
theorem c5_counterexample :
    resolveSection cTwoSec.sections ".data" 0 = some ⟨".data", 8192, 256⟩ ∧
    (runSymbolsCommand cTwoSec ["sym", ".data"] 0).1 =
      [⟨some "f1", some 4200, some SymTy.func⟩] ∧
    ¬ ((8192 : Nat) ≤ 4200) := by
  refine ⟨by decide, by decide, by decide⟩

/-- **C5, amended.**  Section resolution tries address-containment only
when the query fails to parse as an integer (and then uses an indeterminate
address), falling through to exact name match, and an unresolvable query
yields an empty result with a diagnostic; but once resolution succeeds the
resolved section is discarded (line 580 re-fetches `.text` by name): the
command's result is identical for any two successfully-resolving queries,
and on ELF containers the returned symbols are exactly those within the
`.text` section's (truncated-base) range. -/
theorem c5_section_resolution (c : Container) :
    (∀ q1 q2 j1 j2 r1 r2,
      resolveSection c.sections q1 j1 = some r1 →
      resolveSection c.sections q2 j2 = some r2 →
      runSymbolsCommand c ["sym", q1] j1 = runSymbolsCommand c ["sym", q2] j2) ∧
    (∀ q j r t, isELF c.kind = true →
      resolveSection c.sections q j = some r →
      getSectionByName c.sections ".text" = some t →
      ∀ s ∈ (runSymbolsCommand c ["sym", q] j).1,
        ∃ a, s.addrRes = some a ∧ t.base % 2 ^ 32 ≤ a ∧
          a ≤ (t.base % 2 ^ 32 + t.size) % 2 ^ 64) := by
  constructor
  · intro q1 q2 j1 j2 r1 r2 h1 h2
    rw [runSymbols_resolved h1, runSymbols_resolved h2]
  · intro q j r t hElf hres htext s hs
    rw [runSymbols_resolved hres] at hs
    simp only [symbolsFromText, htext, symbolsDispatch] at hs
    cases hk : c.kind with
    | coff => rw [hk] at hElf; exact Bool.noConfusion hElf
    | otherObj => rw [hk] at hElf; exact Bool.noConfusion hElf
    | dummy => rw [hk] at hElf; exact Bool.noConfusion hElf
    | elf32le =>
        simp only [hk] at hs
        obtain ⟨-, -, a, ha, -, hge, hle⟩ := mem_dumpELFSymbols.mp hs
        exact ⟨a, ha, hge, hle⟩
    | elf32be =>
        simp only [hk] at hs
        obtain ⟨-, -, a, ha, -, hge, hle⟩ := mem_dumpELFSymbols.mp hs
        exact ⟨a, ha, hge, hle⟩
    | elf64be =>
        simp only [hk] at hs
        obtain ⟨-, -, a, ha, -, hge, hle⟩ := mem_dumpELFSymbols.mp hs
        exact ⟨a, ha, hge, hle⟩
    | elf64le =>
        simp only [hk] at hs
        obtain ⟨-, -, a, ha, -, hge, hle⟩ := mem_dumpELFSymbols.mp hs
        exact ⟨a, ha, hge, hle⟩

/-- **C5, witness.**  Two different successfully-resolving queries on a
concrete two-section container give the identical result. -/
theorem c5_section_resolution_witness :
    runSymbolsCommand cTwoSec ["sym", ".data"] 0 =
      runSymbolsCommand cTwoSec ["sym", ".text"] 0 :=
  (c5_section_resolution cTwoSec).1 ".data" ".text" 0 0 ⟨".data", 8192, 256⟩
    ⟨".text", 4096, 256⟩ (by decide) (by decide)

/-- **C6, counterexample.**  A COFF container that has a `.text` section
and a function symbol in it: the scan returns the empty symbol set with
*no* diagnostic event whatsoever, refuting the claim that COFF scanning
reports `UnsupportedFormat` rather than silently returning an empty set. -/
theorem c6_counterexample :
    cCoff.kind = ObjKind.coff ∧ cCoff.symbols ≠ [] ∧
    runSymbolsCommand cCoff ["sym", ".text"] 0 = ([], []) := by
  refine ⟨rfl, by decide, by decide⟩

/-- **C6, amended.**  On a COFF container the symbol scan always returns
the empty set, and when the queried section resolves (and `.text` exists)
it does so silently — no diagnostic at all; the "Unsupported section type"
diagnostic is reserved for containers that are neither COFF nor ELF. -/
theorem c6_coff_silent (c : Container) (hk : c.kind = ObjKind.coff) :
    (∀ cl j, (runSymbolsCommand c cl j).1 = []) ∧
    (∀ q j r t, resolveSection c.sections q j = some r →
      getSectionByName c.sections ".text" = some t →
      runSymbolsCommand c ["sym", q] j = ([], [])) := by
  constructor
  · intro cl j
    match cl with
    | [] => rfl
    | [x] => rfl
    | x :: q :: rest =>
      show ((match resolveSection c.sections q j with
            | none => (([] : List SymbolRef), [Ev.err couldNotFindSectionMsg])
            | some _ => symbolsFromText c)).1 = []
      cases hres : resolveSection c.sections q j with
      | none => rfl
      | some r =>
        show (symbolsFromText c).1 = []
        unfold symbolsFromText
        cases htext : getSectionByName c.sections ".text" with
        | none => rfl
        | some t =>
          show (symbolsDispatch c t).1 = []
          unfold symbolsDispatch
          rw [hk]
          rfl
  · intro q j r t hres htext
    rw [runSymbols_resolved hres]
    unfold symbolsFromText
    rw [htext]
    show symbolsDispatch c t = ([], [])
    unfold symbolsDispatch
    rw [hk]
    rfl

/-- **C6, witness.**  The amended statement at the concrete COFF
container. -/
theorem c6_coff_silent_witness :
    runSymbolsCommand cCoff ["sym", ".text"] 0 = ([], []) :=
  (c6_coff_silent cCoff rfl).2 ".text" 0 ⟨".text", 4096, 256⟩ ⟨".text", 4096, 256⟩
    (by decide) (by decide)

end Autodis

namespace Autodis

/-! ## Claims C8, C9, C10 (the census emission loop) -/

/-- **C8, counterexample.**  A symbol whose graph is `[["a"], [], ["b"]]`:
the loop emits the record for `"a"` and then stops at the empty middle
block — the instruction `"b"` of the third block is never emitted, refuting
the claim that one record is emitted per instruction covering every
instruction of every block. -/
theorem c8_counterexample :
    dSplit 100 = some [["a"], [], ["b"]] ∧ sFunc.addrRes = some 100 ∧
    perSymbol dSplit sFunc = ([Ev.out "a\t1"], false) ∧
    Ev.out "b\t1" ∉ (perSymbol dSplit sFunc).1 := by
  refine ⟨rfl, rfl, by decide, by decide⟩

/-- **C8, amended.**  One record of the form `mnemonic ++ "\t1"` is emitted
per instruction in block order then instruction order within each block,
but only up to (excluding) the first empty block: in particular, when every
block of the graph is non-empty, every instruction of every block is
covered. -/
theorem c8_emission_order (d : Nat → Option (List (List String))) (s : SymbolRef)
    (a : Nat) (nm : String) (blocks : List (List String))
    (ha : s.addrRes = some a) (h0 : a ≠ 0) (hn : s.nameRes = some nm)
    (hd : d a = some blocks) (hbs : blocks ≠ [])
    (hne : ∀ b ∈ blocks, b ≠ []) :
    (perSymbol d s).1 = blocks.flatten.map (fun m => Ev.out (m ++ "\t1")) := by
  match blocks, hbs with
  | b :: bs, _ =>
    have hb : b.isEmpty = false := by
      cases b with
      | nil => exact absurd rfl (hne [] (List.mem_cons_self _ _))
      | cons x xs => rfl
    unfold perSymbol
    simp only [ha, hn, hd, hb, Bool.false_eq_true, if_false, if_neg h0]
    rw [emitBlocks_join (b :: bs) hne, List.map_map]
    rfl

/-- **C8, witness.**  The amended statement at a two-block graph. -/
theorem c8_emission_order_witness :
    (perSymbol dTwo sFunc).1 =
      [["a"], ["b"]].flatten.map (fun m => Ev.out (m ++ "\t1")) :=
  c8_emission_order dTwo sFunc 100 "f" [["a"], ["b"]] rfl (by decide) rfl rfl
    (by decide) (by decide)

/-- **C9** (confirmed).  A symbol whose disassembly result is absent
(null), has zero blocks, or whose first block has zero instructions is
skipped — it contributes no events at all — and the census continues with
the surrounding symbols unchanged: the loop over `xs ++ s :: ys` produces
exactly the events of `xs` followed by those of `ys`. -/
theorem c9_skip_degenerate (d : Nat → Option (List (List String))) (s : SymbolRef)
    (a : Nat) (nm : String)
    (ha : s.addrRes = some a) (h0 : a ≠ 0) (hn : s.nameRes = some nm)
    (hd : d a = none ∨ d a = some [] ∨ ∃ bs, d a = some ([] :: bs)) :
    perSymbol d s = ([], false) ∧
    ∀ xs ys, censusLoop d (xs ++ s :: ys) =
      ((censusLoop d xs).1 ++ (censusLoop d ys).1,
        ((censusLoop d xs).2 || (censusLoop d ys).2)) := by
  have hps : perSymbol d s = ([], false) := by
    unfold perSymbol
    rcases hd with hd | hd | ⟨bs, hd⟩ <;> simp [ha, h0, hn, hd]
  refine ⟨hps, ?_⟩
  intro xs ys
  have h2 : censusLoop d (s :: ys) = censusLoop d ys := by
    simp [censusLoop, hps]
  rw [censusLoop_append, h2]

/-- **C9, witness.**  The statement at a concrete symbol whose disassembly
returns null. -/
theorem c9_skip_degenerate_witness :
    perSymbol dNone sFunc = ([], false) ∧
    censusLoop dNone ([] ++ sFunc :: []) =
      ((censusLoop dNone []).1 ++ (censusLoop dNone []).1,
        ((censusLoop dNone []).2 || (censusLoop dNone []).2)) :=
  ⟨(c9_skip_degenerate dNone sFunc 100 "f" rfl (by decide) rfl (Or.inl rfl)).1,
   (c9_skip_degenerate dNone sFunc 100 "f" rfl (by decide) rfl (Or.inl rfl)).2 [] []⟩

/-- **C10** (the claimed safety property fails in the code).  For a symbol
whose graph is the single one-instruction block `[["mov"]]`, the loop emits
the record and the returned flag is `true`: after the last instruction of
the last block the code advanced the block iterator `BI` to `MF->end()`
and then called `BI->instr_begin()` / `BI->instr_end()` on that
past-the-end position (lines 807-810).  The emitted records are unaffected
only because the `BI != BE` test then ends the loop without using the
values read. -/
theorem c10_end_iterator_deref :
    perSymbol dOne sFunc = ([Ev.out "mov\t1"], true) := by
  decide

end Autodis
